import Mathlib

/-!
# Shallow embedding of the next-handler dispatch core (src/src/index.ts)

The embedding models JavaScript values (`Value`), the response object as
explicit state (`Response`), promises as their resolved outcome
(`Except String Value`, with a `Value.prom` constructor for an un-awaited
promise stored inside a value), and the builder / dispatch pipeline of
`src/src/index.ts`: `jsonResponse`, `parseBody`, `parseQuery`, `checkSchema`,
`factoryFunction` (as `registerMethod`), `callHandler` and `buildHandler`
(as `tryDispatch` / `dispatch`).  External collaborators (`JSON.parse`,
`url.parse(...).query`) are parameters of an `Env` record, and validator
objects are modelled by their one operation `parseAsync`, exactly as the
code types them (`ZodSchemaLike`).
-/

namespace NextHandler

/-- JavaScript values as they flow through the dispatcher.  `prom o` is a
promise object whose eventual outcome is `o`; it appears because
`buildHandler` passes the result of `checkSchema(parsedBody, schemas.body)`
to the handler without `await`. -/
inductive Value where
  | undef : Value
  | null : Value
  | bool : Bool → Value
  | num : Int → Value
  | str : String → Value
  | arr : List Value → Value
  | obj : List (String × Value) → Value
  | prom : Except String Value → Value

/-- JavaScript truthiness, as used by `if (req.body)`, `data ? ... : ...`
and `data ? JSON.parse(data) : null`.  (Floating NaN is not modelled;
numbers are integers here.) -/
def truthy : Value → Bool
  | Value.undef => false
  | Value.null => false
  | Value.bool b => b
  | Value.num n => decide (n ≠ 0)
  | Value.str s => decide (s ≠ "")
  | Value.arr _ => true
  | Value.obj _ => true
  | Value.prom _ => true

/-- Escape one character of a JSON string literal. -/
def escapeChar (c : Char) : String :=
  if c = '"' then "\\\"" else if c = '\\' then "\\\\" else toString c

/-- A JSON string literal. -/
def quoteString (s : String) : String :=
  "\"" ++ String.join (s.toList.map escapeChar) ++ "\""

mutual

/-- `JSON.stringify`.  Promise objects have no enumerable properties and
serialize as an empty object; `undefined` occurs only inside arrays
(where JSON.stringify emits `null`) because object properties holding
`undefined` are dropped and the top level is guarded by truthiness in
`jsonResponse`. -/
def stringify : Value → String
  | Value.undef => "null"
  | Value.null => "null"
  | Value.bool b => if b then "true" else "false"
  | Value.num n => toString n
  | Value.str s => quoteString s
  | Value.arr es => "[" ++ stringifyElems es ++ "]"
  | Value.obj fs => "\x7b" ++ stringifyFields fs ++ "\x7d"
  | Value.prom _ => "\x7b\x7d"

/-- Comma-separated serialization of array elements. -/
def stringifyElems : List Value → String
  | [] => ""
  | [v] => stringify v
  | v :: rest => stringify v ++ "," ++ stringifyElems rest

/-- Comma-separated serialization of object fields, dropping `undefined`
properties as `JSON.stringify` does. -/
def stringifyFields : List (String × Value) → String
  | [] => ""
  | (k, v) :: rest =>
    match v with
    | Value.undef => stringifyFields rest
    | v =>
      let s := quoteString k ++ ":" ++ stringify v
      let r := stringifyFields rest
      if r = "" then s else s ++ "," ++ r

end

/-- One `res.end(...)` event: the status code and headers at the moment of
the write, and the written body text. -/
structure WriteEvent where
  status : Nat
  headers : List (String × String)
  body : String
deriving DecidableEq, Repr

/-- The server response object: a mutable status code, mutable headers and
the list of terminal writes performed on it. -/
structure Response where
  statusCode : Nat
  headers : List (String × String)
  writes : List WriteEvent
deriving DecidableEq, Repr

/-- `res.setHeader(key, value)`: replace any existing header of that name. -/
def setHeader (res : Response) (key val : String) : Response :=
  { res with headers := res.headers.filter (fun p => p.1 ≠ key) ++ [(key, val)] }

/-- `jsonResponse(res, status, data?)` from the source: set the status,
set `Content-Type: application/json`, and end the response with
`data ? JSON.stringify(data) : ''`. -/
def jsonResponse (res : Response) (status : Nat) (data : Value) : Response :=
  let res1 : Response := { res with statusCode := status }
  let res2 : Response := setHeader res1 "Content-Type" "application/json"
  { res2 with
      writes := res2.writes ++
        [⟨status, res2.headers, if truthy data then stringify data else ""⟩] }

/-- The incoming request: the method string (absent when the transport
gives none), a possibly pre-attached `body` and `query` (`undef` when not
attached), the url, and the raw byte stream contents decoded as text. -/
structure Request where
  method : Option String
  body : Value
  query : Value
  url : Option String
  rawBody : String

/-- External collaborators of the dispatcher: `JSON.parse` (which can
throw) and `url.parse(url, true).query`. -/
structure Env where
  jsonParse : String → Except String Value
  urlQuery : String → Value

/-- `parseBody` from the source: a truthy pre-attached `req.body` is used
as-is; otherwise the raw stream is accumulated and, if the decoded text is
non-empty, parsed as JSON, else the body is `null`. -/
def parseBody (env : Env) (req : Request) : Except String Value :=
  if truthy req.body then Except.ok req.body
  else if req.rawBody = "" then Except.ok Value.null
  else env.jsonParse req.rawBody

/-- `parseQuery` from the source: a truthy pre-attached `req.query` is used
as-is; otherwise the url's query string is parsed. -/
def parseQuery (env : Env) (req : Request) : Value :=
  if truthy req.query then req.query
  else env.urlQuery (req.url.getD "")

/-- A validator object, by its single operation: asynchronously produce a
validated/coerced value or fail.  The `Except` is the promise's outcome. -/
structure ZodSchemaLike where
  parseAsync : Value → Except String Value

/-- The schema container of a registration: independently optional body
and query validators. -/
structure Schemas where
  query : Option ZodSchemaLike
  body : Option ZodSchemaLike

/-- `checkSchema(obj, schema?)` from the source: validate through the
schema when one is given, otherwise pass the value through.  Being an
`async` function it always returns a promise; this is its outcome. -/
def checkSchema (obj : Value) (schema : Option ZodSchemaLike) : Except String Value :=
  match schema with
  | some s => s.parseAsync obj
  | none => Except.ok obj

/-- The five supported HTTP methods. -/
inductive HttpMethod where
  | get | post | put | patch | delete
deriving DecidableEq, Repr

/-- ASCII lower-casing of one character, as `String.prototype.toLowerCase`
acts on the method names this dispatcher compares against. -/
def lowerChar (c : Char) : Char :=
  if c = 'A' then 'a' else if c = 'B' then 'b' else if c = 'C' then 'c'
  else if c = 'D' then 'd' else if c = 'E' then 'e' else if c = 'F' then 'f'
  else if c = 'G' then 'g' else if c = 'H' then 'h' else if c = 'I' then 'i'
  else if c = 'J' then 'j' else if c = 'K' then 'k' else if c = 'L' then 'l'
  else if c = 'M' then 'm' else if c = 'N' then 'n' else if c = 'O' then 'o'
  else if c = 'P' then 'p' else if c = 'Q' then 'q' else if c = 'R' then 'r'
  else if c = 'S' then 's' else if c = 'T' then 't' else if c = 'U' then 'u'
  else if c = 'V' then 'v' else if c = 'W' then 'w' else if c = 'X' then 'x'
  else if c = 'Y' then 'y' else if c = 'Z' then 'z' else c

/-- `req.method.toLowerCase()`. -/
def toLowerStr (s : String) : String := String.mk (s.data.map lowerChar)

/-- `tdef[method]` key lookup on the lower-cased method string: strings
other than the five method names hit no key. -/
def methodOfString (s : String) : Option HttpMethod :=
  if s = "get" then some HttpMethod.get
  else if s = "post" then some HttpMethod.post
  else if s = "put" then some HttpMethod.put
  else if s = "patch" then some HttpMethod.patch
  else if s = "delete" then some HttpMethod.delete
  else none

/-- A handler: receives the request-context (its request carries the body
and query that dispatch substituted) and the response object, may mutate
the response, and either returns a value (possibly itself a promise) or
throws. -/
def HandlerFn : Type := Request → Response → Response × Except String Value

/-- One registration: the schema container and the handler. -/
structure MethodEntry where
  schemas : Schemas
  handler : HandlerFn

/-- The handler definition registry: at most one entry per method. -/
def HandlerDefinition : Type := HttpMethod → Option MethodEntry

/-- The empty registry a fresh builder starts from. -/
def emptyDefinition : HandlerDefinition := fun _ => none

/-- `factoryFunction`'s registration step: the spread
`{...tdef, [method]: {handler, schemas}}` — a new registry equal to the
old one except at the registered method. -/
def registerMethod (tdef : HandlerDefinition) (m : HttpMethod)
    (entry : MethodEntry) : HandlerDefinition :=
  fun m2 => if m2 = m then some entry else tdef m2

/-- `HandlerFactoryOptions`: the optional fallbacks.  `onError` receives
the context `{req, res, err}` (the request/error pair plus the response
state), `onNotFound` receives `{req, res}`. -/
structure HandlerFactoryOptions where
  onError : Option (Request × String → Response → Response × Except String Value)
  onNotFound : Option (Request → Response → Response × Except String Value)

/-- `await Promise.resolve(v)`: resolve promise layers to a settled value
or propagate the rejection. -/
def awaitValue : Value → Except String Value
  | Value.prom (Except.ok v) => awaitValue v
  | Value.prom (Except.error e) => Except.error e
  | Value.undef => Except.ok Value.undef
  | Value.null => Except.ok Value.null
  | Value.bool b => Except.ok (Value.bool b)
  | Value.num n => Except.ok (Value.num n)
  | Value.str s => Except.ok (Value.str s)
  | Value.arr es => Except.ok (Value.arr es)
  | Value.obj fs => Except.ok (Value.obj fs)

/-- `callHandler(res, handler, handlerArg, defaultStatus)` from the source:
with no handler, write an empty response at the default status; otherwise
invoke the handler, await its result (a thrown error or rejected promise
propagates), resolve the status sentinel (`res.statusCode === 0` means
unset) and perform the JSON write. -/
def callHandler {α : Type} (res : Response)
    (handler : Option (α → Response → Response × Except String Value))
    (handlerArg : α) (defaultStatus : Nat) : Response × Except String Unit :=
  match handler with
  | none => (jsonResponse res defaultStatus Value.undef, Except.ok ())
  | some h =>
    match h handlerArg res with
    | (res1, Except.error e) => (res1, Except.error e)
    | (res1, Except.ok ret) =>
      match awaitValue ret with
      | Except.error e => (res1, Except.error e)
      | Except.ok v =>
        let status := if res1.statusCode = 0 then defaultStatus else res1.statusCode
        (jsonResponse res1 status v, Except.ok ())

/-- The method-entry lookup of `buildHandler`: `req.method` must be
present and its lower-casing must hit a registered key. -/
def matchEntry (tdef : HandlerDefinition) (req : Request) : Option MethodEntry :=
  match req.method with
  | none => none
  | some ms =>
    match methodOfString (toLowerStr ms) with
    | none => none
    | some m => tdef m

/-- The `try` block of `buildHandler` (after the sentinel reset): look up
the method entry; on a match, parse the body (can throw), parse the query,
build the body-validation promise WITHOUT awaiting it (the source lacks
`await` on `checkSchema(parsedBody, schemas.body)`), await the query
validation (a failure throws), and call the handler with the request whose
`body`/`query` the spread replaced; on no match, run the not-found branch
through `callHandler` with default 404. -/
def tryDispatch (tdef : HandlerDefinition) (options : HandlerFactoryOptions)
    (env : Env) (req : Request) (res : Response) : Response × Except String Unit :=
  match matchEntry tdef req with
  | some entry =>
    match parseBody env req with
    | Except.error e => (res, Except.error e)
    | Except.ok parsedBody =>
      let parsedQuery := parseQuery env req
      let body := Value.prom (checkSchema parsedBody entry.schemas.body)
      match checkSchema parsedQuery entry.schemas.query with
      | Except.error e => (res, Except.error e)
      | Except.ok query =>
        callHandler res (some entry.handler)
          { req with body := body, query := query } 200
  | none => callHandler res options.onNotFound req 404

/-- `res.statusCode = 0`: the sentinel reset at the top of the dispatch. -/
def resetStatus (res : Response) : Response := { res with statusCode := 0 }

/-- The dispatch function produced by `buildHandler(tdef, options)()`:
reset the status sentinel, run the `try` block, and on any thrown error run
the error branch through `callHandler` with default 500.  A throw out of
the error branch (a throwing `onError`) is not caught and rejects the
dispatch. -/
def dispatch (tdef : HandlerDefinition) (options : HandlerFactoryOptions)
    (env : Env) (req : Request) (res0 : Response) : Response × Except String Unit :=
  let res := resetStatus res0
  match tryDispatch tdef options env req res with
  | (res1, Except.ok u) => (res1, Except.ok u)
  | (res1, Except.error err) => callHandler res1 options.onError (req, err) 500

/-- A builder value: the accumulated registry plus the factory options it
closes over; `nextHandler(options)` starts from the empty registry. -/
structure Builder where
  tdef : HandlerDefinition
  options : HandlerFactoryOptions

/-- `nextHandler(options)`: a fresh builder. -/
def nextHandler (options : HandlerFactoryOptions) : Builder :=
  ⟨emptyDefinition, options⟩

/-- One chaining call (`.get(...)`, `.post(...)`, ...): a new builder whose
registry is the old one plus this method's entry. -/
def Builder.register (b : Builder) (m : HttpMethod) (schemas : Schemas)
    (h : HandlerFn) : Builder :=
  { b with tdef := registerMethod b.tdef m ⟨schemas, h⟩ }

/-- `.build()`: the dispatch function closing over the final registry and
options. -/
def Builder.build (b : Builder) (env : Env) (req : Request) (res : Response) :
    Response × Except String Unit :=
  dispatch b.tdef b.options env req res

end NextHandler

namespace NextHandler

/-! ## Theorems about the dispatch pipeline -/

/-- C3: The response status code acts as a tri-state sentinel: dispatch
resets it to 0 (unset) at the start of each invocation; if the matched
handler's call finishes with the status still 0 the final response status
is 200, and if the handler set the status to any non-zero value `v` before
returning, the final response status is exactly `v`, overriding the path's
default. -/
theorem status_sentinel_resolution
    (tdef : HandlerDefinition) (options : HandlerFactoryOptions) (env : Env)
    (req : Request) (res0 : Response) (entry : MethodEntry)
    (pb q : Value) (res2 : Response) (ret v : Value)
    (hmatch : matchEntry tdef req = some entry)
    (hbody : parseBody env req = Except.ok pb)
    (hquery : checkSchema (parseQuery env req) entry.schemas.query = Except.ok q)
    (hhandler : entry.handler
      { req with body := Value.prom (checkSchema pb entry.schemas.body), query := q }
      (resetStatus res0) = (res2, Except.ok ret))
    (hawait : awaitValue ret = Except.ok v) :
    (resetStatus res0).statusCode = 0 ∧
    dispatch tdef options env req res0 =
      (jsonResponse res2 (if res2.statusCode = 0 then 200 else res2.statusCode) v,
        Except.ok ()) ∧
    ((dispatch tdef options env req res0).1).statusCode =
      (if res2.statusCode = 0 then 200 else res2.statusCode) := by
  have hd : dispatch tdef options env req res0 =
      (jsonResponse res2 (if res2.statusCode = 0 then 200 else res2.statusCode) v,
        Except.ok ()) := by
    simp only [dispatch, tryDispatch, hmatch, hbody, hquery, callHandler, hhandler, hawait]
  refine ⟨rfl, hd, ?_⟩
  rw [hd]
  simp [jsonResponse, setHeader]

end NextHandler

namespace NextHandler

/-- C5: If the `try` block of a dispatch invocation throws (validation
failure, handler exception, rejected promise, JSON parse error): with no
`onError` configured, the response is an empty JSON body with status 500;
with `onError` configured, its awaited returned payload is written with the
status resolved from the sentinel, defaulting to 500. -/
theorem error_path_resolution
    (tdef : HandlerDefinition) (options : HandlerFactoryOptions) (env : Env)
    (req : Request) (res0 res1 : Response) (e : String)
    (htry : tryDispatch tdef options env req (resetStatus res0) =
      (res1, Except.error e)) :
    (options.onError = none →
      dispatch tdef options env req res0 =
        (jsonResponse res1 500 Value.undef, Except.ok ()) ∧
      ((dispatch tdef options env req res0).1).statusCode = 500 ∧
      ∃ hs, ((dispatch tdef options env req res0).1).writes =
        res1.writes ++ [⟨500, hs, ""⟩] ∧ ("Content-Type", "application/json") ∈ hs) ∧
    (∀ f res2 ret v, options.onError = some f →
      f (req, e) res1 = (res2, Except.ok ret) →
      awaitValue ret = Except.ok v →
      dispatch tdef options env req res0 =
        (jsonResponse res2 (if res2.statusCode = 0 then 500 else res2.statusCode) v,
          Except.ok ())) := by
  constructor
  · intro hnone
    have hd : dispatch tdef options env req res0 =
        (jsonResponse res1 500 Value.undef, Except.ok ()) := by
      simp only [dispatch, htry, hnone, callHandler]
    refine ⟨hd, ?_, ?_⟩ <;> rw [hd] <;>
      simp [jsonResponse, setHeader, truthy]
  · intro f res2 ret v hsome hf hawait
    simp only [dispatch, htry, hsome, callHandler, hf, hawait]

/-- C6: For a request carrying no method, or whose lower-cased method has
no registered entry (`matchEntry` yields none): with no `onNotFound`
configured, the response is an empty JSON body with status 404; with
`onNotFound` configured, its awaited returned payload is written with the
sentinel-resolved status, defaulting to 404. -/
theorem notfound_path_resolution
    (tdef : HandlerDefinition) (options : HandlerFactoryOptions) (env : Env)
    (req : Request) (res0 : Response)
    (hmatch : matchEntry tdef req = none) :
    (options.onNotFound = none →
      dispatch tdef options env req res0 =
        (jsonResponse (resetStatus res0) 404 Value.undef, Except.ok ()) ∧
      ((dispatch tdef options env req res0).1).statusCode = 404 ∧
      ∃ hs, ((dispatch tdef options env req res0).1).writes =
        res0.writes ++ [⟨404, hs, ""⟩] ∧ ("Content-Type", "application/json") ∈ hs) ∧
    (∀ g res2 ret v, options.onNotFound = some g →
      g req (resetStatus res0) = (res2, Except.ok ret) →
      awaitValue ret = Except.ok v →
      dispatch tdef options env req res0 =
        (jsonResponse res2 (if res2.statusCode = 0 then 404 else res2.statusCode) v,
          Except.ok ())) := by
  constructor
  · intro hnone
    have hd : dispatch tdef options env req res0 =
        (jsonResponse (resetStatus res0) 404 Value.undef, Except.ok ()) := by
      simp only [dispatch, tryDispatch, hmatch, hnone, callHandler]
    refine ⟨hd, ?_, ?_⟩ <;> rw [hd] <;>
      simp [jsonResponse, setHeader, resetStatus, truthy]
  · intro g res2 ret v hsome hg hawait
    simp only [dispatch, tryDispatch, hmatch, hsome, callHandler, hg, hawait]

end NextHandler

namespace NextHandler

/-- A handler or fallback that mutates the response's status and headers
but never itself ends the response. -/
def preservesWrites {α : Type} (f : α → Response → Response × Except String Value) : Prop :=
  ∀ a r, ((f a r).1).writes = r.writes

/-- `jsonResponse` appends exactly one write, with the given status, a
`Content-Type: application/json` header, and the truthiness-guarded body. -/
theorem jsonResponse_appends_one_write (res : Response) (s : Nat) (d : Value) :
    ∃ w : WriteEvent, (jsonResponse res s d).writes = res.writes ++ [w] ∧
      w.status = s ∧ ("Content-Type", "application/json") ∈ w.headers ∧
      w.body = (if truthy d then stringify d else "") := by
  refine ⟨⟨s, (setHeader { res with statusCode := s } "Content-Type"
    "application/json").headers, if truthy d then stringify d else ""⟩,
    ?_, rfl, ?_, rfl⟩
  · simp [jsonResponse, setHeader]
  · simp [setHeader]

/-- `callHandler` appends exactly one write (with a JSON content-type) when
it returns normally, and appends none when the handler's invocation or its
awaited result throws — provided the handler does not end the response
itself. -/
theorem callHandler_writes {α : Type} (res : Response)
    (handler : Option (α → Response → Response × Except String Value))
    (arg : α) (d : Nat)
    (hpres : ∀ f, handler = some f → preservesWrites f) :
    (∀ res1 u, callHandler res handler arg d = (res1, Except.ok u) →
      ∃ w : WriteEvent, res1.writes = res.writes ++ [w] ∧
        ("Content-Type", "application/json") ∈ w.headers) ∧
    (∀ res1 e, callHandler res handler arg d = (res1, Except.error e) →
      res1.writes = res.writes) := by
  match handler with
  | none =>
    constructor
    · intro res1 u h
      simp only [callHandler] at h
      obtain ⟨w, hw, _, hct, _⟩ := jsonResponse_appends_one_write res d Value.undef
      exact ⟨w, by rw [← (Prod.mk.injEq ..).mp h |>.1, hw], hct⟩
    · intro res1 e h
      simp only [callHandler] at h
      exact absurd ((Prod.mk.injEq ..).mp h).2 (by simp)
  | some f =>
    have hf : preservesWrites f := hpres f rfl
    constructor
    · intro res1 u h
      simp only [callHandler] at h
      rcases hres : f arg res with ⟨rf, exf⟩
      rw [hres] at h
      match exf with
      | Except.error e => simp at h
      | Except.ok ret =>
        simp only at h
        match hav : awaitValue ret with
        | Except.error e => rw [hav] at h; simp at h
        | Except.ok v =>
          rw [hav] at h
          simp only at h
          have hrw : rf.writes = res.writes := by
            have := hf arg res
            rw [hres] at this
            exact this
          obtain ⟨w, hw, _, hct, _⟩ := jsonResponse_appends_one_write rf
            (if rf.statusCode = 0 then d else rf.statusCode) v
          refine ⟨w, ?_, hct⟩
          rw [← ((Prod.mk.injEq ..).mp h).1, hw, hrw]
    · intro res1 e h
      simp only [callHandler] at h
      rcases hres : f arg res with ⟨rf, exf⟩
      rw [hres] at h
      have hrw : rf.writes = res.writes := by
        have := hf arg res
        rw [hres] at this
        exact this
      match exf with
      | Except.error e2 =>
        simp only at h
        rw [← ((Prod.mk.injEq ..).mp h).1, hrw]
      | Except.ok ret =>
        simp only at h
        match hav : awaitValue ret with
        | Except.error e2 =>
          rw [hav] at h
          simp only at h
          rw [← ((Prod.mk.injEq ..).mp h).1, hrw]
        | Except.ok v => rw [hav] at h; simp at h

end NextHandler

namespace NextHandler

/-- A successful method lookup comes from some key of the registry. -/
theorem matchEntry_some_of (tdef : HandlerDefinition) (req : Request)
    (entry : MethodEntry) (h : matchEntry tdef req = some entry) :
    ∃ m, tdef m = some entry := by
  unfold matchEntry at h
  match hm : req.method with
  | none => simp only [hm] at h; exact absurd h (by simp)
  | some ms =>
    simp only [hm] at h
    match hs : methodOfString (toLowerStr ms) with
    | none => simp only [hs] at h; exact absurd h (by simp)
    | some m => simp only [hs] at h; exact ⟨m, h⟩

/-- The `try` block appends exactly one JSON write when it completes
normally, and none when it throws — provided registered handlers and the
`onNotFound` fallback do not end the response themselves. -/
theorem tryDispatch_writes (tdef : HandlerDefinition)
    (options : HandlerFactoryOptions) (env : Env) (req : Request) (res : Response)
    (hh : ∀ m e, tdef m = some e → preservesWrites e.handler)
    (hnf : ∀ g, options.onNotFound = some g → preservesWrites g) :
    (∀ res1 u, tryDispatch tdef options env req res = (res1, Except.ok u) →
      ∃ w : WriteEvent, res1.writes = res.writes ++ [w] ∧
        ("Content-Type", "application/json") ∈ w.headers) ∧
    (∀ res1 e, tryDispatch tdef options env req res = (res1, Except.error e) →
      res1.writes = res.writes) := by
  unfold tryDispatch
  match hm : matchEntry tdef req with
  | none =>
    exact callHandler_writes res options.onNotFound req 404 hnf
  | some entry =>
    obtain ⟨m, hme⟩ := matchEntry_some_of tdef req entry hm
    have hpre : preservesWrites entry.handler := hh m entry hme
    match hpb : parseBody env req with
    | Except.error e =>
      constructor
      · intro res1 u h; simp at h
      · intro res1 e2 h
        simp only at h
        rw [← ((Prod.mk.injEq ..).mp h).1]
    | Except.ok pb =>
      simp only
      match hq : checkSchema (parseQuery env req) entry.schemas.query with
      | Except.error e =>
        constructor
        · intro res1 u h; simp at h
        · intro res1 e2 h
          simp only at h
          rw [← ((Prod.mk.injEq ..).mp h).1]
      | Except.ok q =>
        have hpres2 : ∀ f : Request → Response → Response × Except String Value,
            some entry.handler = some f → preservesWrites f := by
          intro f hf
          injection hf with h2
          rw [← h2]
          exact hpre
        exact callHandler_writes res (some entry.handler)
          { req with body := Value.prom (checkSchema pb entry.schemas.body), query := q }
          200 hpres2

end NextHandler

namespace NextHandler

/-- C2 (amended): Per invocation, when the dispatch function returns
normally it has appended exactly one terminal write, and that write carries
a `Content-Type: application/json` header; when it propagates an exception
(which requires a configured `onError` that throws) it has appended no
write at all — provided handlers and fallbacks do not end the response
themselves. -/
theorem dispatch_single_write (tdef : HandlerDefinition)
    (options : HandlerFactoryOptions) (env : Env) (req : Request) (res0 : Response)
    (hh : ∀ m e, tdef m = some e → preservesWrites e.handler)
    (hnf : ∀ g, options.onNotFound = some g → preservesWrites g)
    (herr : ∀ f, options.onError = some f → preservesWrites f) :
    (∀ res1 u, dispatch tdef options env req res0 = (res1, Except.ok u) →
      ∃ w : WriteEvent, res1.writes = res0.writes ++ [w] ∧
        ("Content-Type", "application/json") ∈ w.headers) ∧
    (∀ res1 e, dispatch tdef options env req res0 = (res1, Except.error e) →
      res1.writes = res0.writes) := by
  have hres : (resetStatus res0).writes = res0.writes := rfl
  have htry := tryDispatch_writes tdef options env req (resetStatus res0) hh hnf
  have hde : dispatch tdef options env req res0 =
      (match tryDispatch tdef options env req (resetStatus res0) with
       | (res1, Except.ok u) => (res1, Except.ok u)
       | (res1, Except.error err) => callHandler res1 options.onError (req, err) 500) := rfl
  match ht : tryDispatch tdef options env req (resetStatus res0) with
  | (resA, Except.ok u) =>
    rw [ht] at hde
    have hde2 : dispatch tdef options env req res0 = (resA, Except.ok u) := hde
    constructor
    · intro res1 u2 h
      rw [hde2] at h
      obtain ⟨w, hw, hct⟩ := htry.1 resA u ht
      refine ⟨w, ?_, hct⟩
      rw [← ((Prod.mk.injEq ..).mp h).1, hw, hres]
    · intro res1 e h
      rw [hde2] at h
      exact absurd ((Prod.mk.injEq ..).mp h).2 (by simp)
  | (resA, Except.error e) =>
    rw [ht] at hde
    have hde2 : dispatch tdef options env req res0 =
        callHandler resA options.onError (req, e) 500 := hde
    have hA : resA.writes = res0.writes := by
      rw [htry.2 resA e ht, hres]
    have hcall := callHandler_writes resA options.onError (req, e) 500 herr
    constructor
    · intro res1 u h
      rw [hde2] at h
      obtain ⟨w, hw, hct⟩ := hcall.1 res1 u h
      exact ⟨w, by rw [hw, hA], hct⟩
    · intro res1 e2 h
      rw [hde2] at h
      rw [hcall.2 res1 e2 h, hA]

/-- C7: Registering the same HTTP method twice along a builder chain is
silent last-write-wins: the resulting builder's registry equals the one
obtained by registering only the later entry, its lookup at that method is
the later entry, and the dispatcher built from it behaves identically to
one built from the later registration alone. -/
theorem duplicate_registration_last_write_wins (b : Builder) (m : HttpMethod)
    (s1 s2 : Schemas) (h1 h2 : HandlerFn) :
    ((b.register m s1 h1).register m s2 h2).tdef = (b.register m s2 h2).tdef ∧
    ((b.register m s1 h1).register m s2 h2).tdef m = some ⟨s2, h2⟩ ∧
    ∀ env req res, ((b.register m s1 h1).register m s2 h2).build env req res =
      (b.register m s2 h2).build env req res := by
  have hreg : ((b.register m s1 h1).register m s2 h2).tdef = (b.register m s2 h2).tdef := by
    funext m2
    simp only [Builder.register, registerMethod]
    by_cases hm : m2 = m <;> simp [hm]
  refine ⟨hreg, ?_, ?_⟩
  · simp [Builder.register, registerMethod]
  · intro env req res
    simp only [Builder.build, Builder.register] at hreg ⊢
    rw [hreg]

/-- C8: Each per-method registration returns a new builder whose registry
is the previous registry plus the one new entry: lookup at the registered
method yields the new entry, lookup at every other method is unchanged, and
the options are carried over — the previous builder value itself is
untouched (the registration is a pure spread, not a mutation). -/
theorem register_frame (b : Builder) (m : HttpMethod) (s : Schemas) (h : HandlerFn) :
    (b.register m s h).tdef m = some ⟨s, h⟩ ∧
    (∀ m2, m2 ≠ m → (b.register m s h).tdef m2 = b.tdef m2) ∧
    (b.register m s h).options = b.options := by
  refine ⟨?_, ?_, rfl⟩
  · simp [Builder.register, registerMethod]
  · intro m2 hne
    simp [Builder.register, registerMethod, hne]

/-- C10: `parseBody` uses a pre-attached `req.body` as-is only when it is
truthy; for a falsy pre-attached body (`0`, `false`, the empty string,
`null`, `undefined`) it falls through to JSON-parsing the raw stream,
yielding `null` when the stream is empty. -/
theorem falsy_preattached_body_ignored (env : Env) (req : Request) :
    (truthy req.body = false →
      parseBody env req =
        (if req.rawBody = "" then Except.ok Value.null
         else env.jsonParse req.rawBody)) ∧
    (truthy req.body = true → parseBody env req = Except.ok req.body) ∧
    truthy (Value.num 0) = false ∧ truthy (Value.bool false) = false ∧
    truthy (Value.str "") = false ∧ truthy Value.null = false ∧
    truthy Value.undef = false := by
  refine ⟨?_, ?_, rfl, rfl, by simp [truthy], rfl, rfl⟩
  · intro hfalse
    simp [parseBody, hfalse]
  · intro htrue
    simp [parseBody, htrue]

end NextHandler

namespace NextHandler

/-- C9 (amended): A throwing `onError` propagates uncaught out of dispatch
with exactly the response state the callback left (no further write by the
engine); a throwing `onNotFound`, by contrast, is caught by the single
outermost catch and routed into the error path (`callHandler` on `onError`
with default 500). -/
theorem fallback_throw_behavior (tdef : HandlerDefinition)
    (options : HandlerFactoryOptions) (env : Env) (req : Request) (res0 : Response) :
    (∀ res1 e f res2 e2,
      tryDispatch tdef options env req (resetStatus res0) = (res1, Except.error e) →
      options.onError = some f →
      f (req, e) res1 = (res2, Except.error e2) →
      dispatch tdef options env req res0 = (res2, Except.error e2)) ∧
    (∀ g res2 e,
      matchEntry tdef req = none →
      options.onNotFound = some g →
      g req (resetStatus res0) = (res2, Except.error e) →
      dispatch tdef options env req res0 =
        callHandler res2 options.onError (req, e) 500) := by
  constructor
  · intro res1 e f res2 e2 htry hsome hf
    simp only [dispatch, htry, callHandler, hsome, hf]
  · intro g res2 e hmatch hsome hg
    simp only [dispatch, tryDispatch, hmatch, callHandler, hsome, hg]

/-- C4 (amended): On the success path's terminal write, the body is the
JSON serialization of the resolved payload when the payload is truthy, and
is empty for every falsy payload — not only for an absent/undefined one:
`undefined`, `null`, `false`, `0` and the empty string all produce an
empty body. -/
theorem response_body_serialization
    (tdef : HandlerDefinition) (options : HandlerFactoryOptions) (env : Env)
    (req : Request) (res0 : Response) (entry : MethodEntry)
    (pb q : Value) (res2 : Response) (ret v : Value)
    (hmatch : matchEntry tdef req = some entry)
    (hbody : parseBody env req = Except.ok pb)
    (hquery : checkSchema (parseQuery env req) entry.schemas.query = Except.ok q)
    (hhandler : entry.handler
      { req with body := Value.prom (checkSchema pb entry.schemas.body), query := q }
      (resetStatus res0) = (res2, Except.ok ret))
    (hawait : awaitValue ret = Except.ok v) :
    (∃ w : WriteEvent, ((dispatch tdef options env req res0).1).writes =
      res2.writes ++ [w] ∧ w.body = (if truthy v then stringify v else "") ∧
      ("Content-Type", "application/json") ∈ w.headers) ∧
    (∀ u : Value, truthy u = false ↔
      (u = Value.undef ∨ u = Value.null ∨ u = Value.bool false ∨
       u = Value.num 0 ∨ u = Value.str "")) := by
  constructor
  · have hd : dispatch tdef options env req res0 =
        (jsonResponse res2 (if res2.statusCode = 0 then 200 else res2.statusCode) v,
          Except.ok ()) := by
      simp only [dispatch, tryDispatch, hmatch, hbody, hquery, callHandler, hhandler, hawait]
    obtain ⟨w, hw, _, hct, hb⟩ := jsonResponse_appends_one_write res2
      (if res2.statusCode = 0 then 200 else res2.statusCode) v
    refine ⟨w, ?_, hb, hct⟩
    rw [hd]
    exact hw
  · intro u
    cases u <;> simp [truthy, decide_eq_false_iff_not]

end NextHandler

namespace NextHandler

/-! ## Concrete fixtures for evaluations and witnesses -/

/-- An environment whose `JSON.parse` yields `null` and whose query-string
parser yields an empty object. -/
def envFix : Env := ⟨fun _ => Except.ok Value.null, fun _ => Value.obj []⟩

/-- A fresh response with an arbitrary initial status and no writes. -/
def resFix : Response := ⟨123, [], []⟩

/-- A factory with neither fallback configured. -/
def noOptions : HandlerFactoryOptions := ⟨none, none⟩

/-- A request that carries no method. -/
def reqNoMethod : Request := ⟨none, Value.undef, Value.undef, none, ""⟩

/-- A plain GET request with empty stream and nothing pre-attached. -/
def reqGet : Request := ⟨some "GET", Value.undef, Value.undef, some "/", ""⟩

/-- A POST request whose transport pre-attached the parsed body
`{name: "John"}`. -/
def reqPostJohn : Request :=
  ⟨some "POST", Value.obj [("name", Value.str "John")], Value.undef, some "/", ""⟩

/-- The JSON content-type header pair. -/
def ctHeader : String × String := ("Content-Type", "application/json")

/-- A body validator that rejects every input. -/
def schemaRejectAll : ZodSchemaLike := ⟨fun _ => Except.error "invalid body"⟩

/-- A post registration whose body schema rejects everything and whose
handler ignores the body and returns the marker string "ran". -/
def entryConstHandler : MethodEntry :=
  ⟨⟨none, some schemaRejectAll⟩, fun _ r => (r, Except.ok (Value.str "ran"))⟩

/-- Registry with only `entryConstHandler` under post. -/
def tdefConstHandler : HandlerDefinition :=
  registerMethod emptyDefinition HttpMethod.post entryConstHandler

/-- Same rejecting body schema, but the handler returns `req.body` (as the
repository's own body tests do). -/
def entryEchoBody : MethodEntry :=
  ⟨⟨none, some schemaRejectAll⟩, fun ctx r => (r, Except.ok ctx.body)⟩

/-- Registry with only `entryEchoBody` under post. -/
def tdefEchoBody : HandlerDefinition :=
  registerMethod emptyDefinition HttpMethod.post entryEchoBody

/-- A get handler that sets status 418 before returning "t". -/
def entryStatus418 : MethodEntry :=
  ⟨⟨none, none⟩, fun _ r => ({ r with statusCode := 418 }, Except.ok (Value.str "t"))⟩

/-- Registry with only `entryStatus418` under get. -/
def tdefStatus418 : HandlerDefinition :=
  registerMethod emptyDefinition HttpMethod.get entryStatus418

/-- A get handler returning the falsy payload `0`. -/
def entryZeroPayload : MethodEntry :=
  ⟨⟨none, none⟩, fun _ r => (r, Except.ok (Value.num 0))⟩

/-- Registry with only `entryZeroPayload` under get. -/
def tdefZeroPayload : HandlerDefinition :=
  registerMethod emptyDefinition HttpMethod.get entryZeroPayload

/-- A get handler that throws. -/
def entryThrow : MethodEntry := ⟨⟨none, none⟩, fun _ r => (r, Except.error "bad")⟩

/-- Registry with only `entryThrow` under get. -/
def tdefThrow : HandlerDefinition :=
  registerMethod emptyDefinition HttpMethod.get entryThrow

/-- The teapot error payload of the repository's custom-error test. -/
def teapotPayload : Value := Value.obj [("error", Value.str "Teapot Error")]

/-- Options with an `onError` that sets status 418 and returns the teapot
payload. -/
def optsError418 : HandlerFactoryOptions :=
  ⟨some (fun _ r => ({ r with statusCode := 418 }, Except.ok teapotPayload)), none⟩

/-- Options whose `onNotFound` throws and with no `onError`. -/
def optsNotFoundThrow : HandlerFactoryOptions :=
  ⟨none, some (fun _ r => (r, Except.error "boom"))⟩

/-- Options whose `onNotFound` and `onError` both throw. -/
def optsBothThrow : HandlerFactoryOptions :=
  ⟨some (fun _ r => (r, Except.error "boom2")), some (fun _ r => (r, Except.error "boom"))⟩

/-! ## Closed evaluations and witnesses -/

/-- C1: the code's behavior at a failing input.  The registered body schema
rejects the pre-attached body `{name: "John"}` (first conjunct), yet the
dispatcher invokes the handler anyway — `checkSchema(parsedBody,
schemas.body)` is never awaited — and the handler's marker payload is
written with success status 200 (second and third conjuncts), where the
spec requires that the handler never run and the error path write an empty
500 response.  Only when a handler returns `req.body` itself (the shape of
the repository's own tests) does the rejected promise surface through
`await Promise.resolve` and produce the specified 500/empty outcome
(fourth conjunct). -/
theorem body_validation_bypasses_handler_eval :
    schemaRejectAll.parseAsync (Value.obj [("name", Value.str "John")]) =
      Except.error "invalid body" ∧
    ((dispatch tdefConstHandler noOptions envFix reqPostJohn resFix).1).writes.map
      (fun w => (w.status, w.body)) = [(200, "\"ran\"")] ∧
    (dispatch tdefConstHandler noOptions envFix reqPostJohn resFix).2 = Except.ok () ∧
    ((dispatch tdefEchoBody noOptions envFix reqPostJohn resFix).1).writes.map
      (fun w => (w.status, w.body)) = [(500, "")] :=
  ⟨rfl, rfl, rfl, rfl⟩

/-- C2 counterexample: an invocation in which no terminal write occurs at
all — the not-found fallback throws, the error fallback throws, and the
dispatch rejects with the error fallback's exception, its write list still
empty. -/
theorem no_write_when_both_fallbacks_throw :
    dispatch emptyDefinition optsBothThrow envFix reqNoMethod resFix =
      (resetStatus resFix, Except.error "boom2") ∧
    ((dispatch emptyDefinition optsBothThrow envFix reqNoMethod resFix).1).writes = [] :=
  ⟨rfl, rfl⟩

/-- C2 witness: at a concrete not-found request with no fallbacks, the
normally-returning dispatch appended exactly one write, which carries the
JSON content-type header. -/
theorem dispatch_single_write_witness :
    ∃ w : WriteEvent,
      ((dispatch emptyDefinition noOptions envFix reqNoMethod resFix).1).writes =
        resFix.writes ++ [w] ∧ ("Content-Type", "application/json") ∈ w.headers :=
  (dispatch_single_write emptyDefinition noOptions envFix reqNoMethod resFix
    (fun _ _ h => Option.noConfusion h) (fun _ h => Option.noConfusion h)
    (fun _ h => Option.noConfusion h)).1
    ⟨404, [ctHeader], [⟨404, [ctHeader], ""⟩]⟩ () rfl

end NextHandler

namespace NextHandler

/-- C3 witness: the status-sentinel theorem at the concrete 418-setting
handler — the handler saw the reset sentinel and its explicit 418 overrode
the 200 default. -/
theorem status_sentinel_resolution_witness :
    (resetStatus resFix).statusCode = 0 ∧
    dispatch tdefStatus418 noOptions envFix reqGet resFix =
      (jsonResponse ⟨418, [], []⟩
        (if (⟨418, [], []⟩ : Response).statusCode = 0 then 200
         else (⟨418, [], []⟩ : Response).statusCode) (Value.str "t"), Except.ok ()) ∧
    ((dispatch tdefStatus418 noOptions envFix reqGet resFix).1).statusCode =
      (if (⟨418, [], []⟩ : Response).statusCode = 0 then 200
       else (⟨418, [], []⟩ : Response).statusCode) :=
  status_sentinel_resolution tdefStatus418 noOptions envFix reqGet resFix
    entryStatus418 Value.null (Value.obj []) ⟨418, [], []⟩ (Value.str "t")
    (Value.str "t") rfl rfl rfl rfl rfl

/-- C4 counterexample: a handler returning the payload `0` — a value that
is present, not absent/undefined, and serializes to "0" — produces an
empty body on the terminal write, because `jsonResponse` guards the body by
JavaScript truthiness, not by presence. -/
theorem falsy_payload_empty_body_counterexample :
    ((dispatch tdefZeroPayload noOptions envFix reqGet resFix).1).writes.map
      (fun w => (w.status, w.body)) = [(200, "")] ∧
    stringify (Value.num 0) = "0" ∧
    Value.num 0 ≠ Value.undef :=
  ⟨rfl, rfl, fun h => Value.noConfusion h⟩

/-- C4 witness: the amended serialization theorem at the concrete
zero-payload handler. -/
theorem response_body_serialization_witness :
    (∃ w : WriteEvent,
      ((dispatch tdefZeroPayload noOptions envFix reqGet resFix).1).writes =
        (resetStatus resFix).writes ++ [w] ∧
      w.body = (if truthy (Value.num 0) then stringify (Value.num 0) else "") ∧
      ("Content-Type", "application/json") ∈ w.headers) ∧
    (∀ u : Value, truthy u = false ↔
      (u = Value.undef ∨ u = Value.null ∨ u = Value.bool false ∨
       u = Value.num 0 ∨ u = Value.str "")) :=
  response_body_serialization tdefZeroPayload noOptions envFix reqGet resFix
    entryZeroPayload Value.null (Value.obj []) (resetStatus resFix) (Value.num 0)
    (Value.num 0) rfl rfl rfl rfl rfl

/-- C5 witness: the error-path theorem at a throwing handler with the
418-setting `onError` (the repository's custom-error test scenario). -/
theorem error_path_resolution_witness :
    dispatch tdefThrow optsError418 envFix reqGet resFix =
      (jsonResponse ⟨418, [], []⟩
        (if (⟨418, [], []⟩ : Response).statusCode = 0 then 500
         else (⟨418, [], []⟩ : Response).statusCode) teapotPayload, Except.ok ()) :=
  (error_path_resolution tdefThrow optsError418 envFix reqGet resFix
    (resetStatus resFix) "bad" rfl).2 _ ⟨418, [], []⟩ teapotPayload teapotPayload
    rfl rfl rfl

/-- C6 witness: the not-found theorem at a method-less request with no
fallbacks: empty JSON body, status 404. -/
theorem notfound_path_resolution_witness :
    dispatch emptyDefinition noOptions envFix reqNoMethod resFix =
      (jsonResponse (resetStatus resFix) 404 Value.undef, Except.ok ()) ∧
    ((dispatch emptyDefinition noOptions envFix reqNoMethod resFix).1).statusCode = 404 ∧
    ∃ hs, ((dispatch emptyDefinition noOptions envFix reqNoMethod resFix).1).writes =
      resFix.writes ++ [⟨404, hs, ""⟩] ∧ ("Content-Type", "application/json") ∈ hs :=
  (notfound_path_resolution emptyDefinition noOptions envFix reqNoMethod resFix rfl).1 rfl

/-- A trivial handler used by the builder fixtures. -/
def handlerNull : HandlerFn := fun _ r => (r, Except.ok Value.null)

/-- An empty schema container. -/
def emptySchemas : Schemas := ⟨none, none⟩

/-- A builder with one get registration. -/
def builderGet : Builder :=
  (nextHandler noOptions).register HttpMethod.get emptySchemas handlerNull

/-- C8 witness: registering post on `builderGet` yields the post entry and
leaves the get lookup unchanged. -/
theorem register_frame_witness :
    (builderGet.register HttpMethod.post emptySchemas handlerNull).tdef
      HttpMethod.post = some ⟨emptySchemas, handlerNull⟩ ∧
    (builderGet.register HttpMethod.post emptySchemas handlerNull).tdef
      HttpMethod.get = builderGet.tdef HttpMethod.get :=
  ⟨(register_frame builderGet HttpMethod.post emptySchemas handlerNull).1,
   (register_frame builderGet HttpMethod.post emptySchemas handlerNull).2.1
     HttpMethod.get (by decide)⟩

/-- C9 counterexample: with a throwing `onNotFound` and no `onError`, the
exception does NOT propagate out of dispatch — dispatch returns normally —
and a further response write (the 500 empty fallback write) is performed. -/
theorem notfound_throw_is_caught_counterexample :
    dispatch emptyDefinition optsNotFoundThrow envFix reqNoMethod resFix =
      (⟨500, [ctHeader], [⟨500, [ctHeader], ""⟩]⟩, Except.ok ()) ∧
    ((dispatch emptyDefinition optsNotFoundThrow envFix reqNoMethod resFix).1).writes.length
      = 1 :=
  ⟨rfl, rfl⟩

/-- C9 witness: the amended fallback theorem at concrete inputs — a
throwing `onError` rejects the dispatch with its own exception, and a
throwing `onNotFound` is routed to the error path. -/
theorem fallback_throw_behavior_witness :
    dispatch emptyDefinition optsBothThrow envFix reqNoMethod resFix =
      (resetStatus resFix, Except.error "boom2") ∧
    dispatch emptyDefinition optsNotFoundThrow envFix reqNoMethod resFix =
      callHandler (resetStatus resFix) optsNotFoundThrow.onError
        (reqNoMethod, "boom") 500 :=
  ⟨(fallback_throw_behavior emptyDefinition optsBothThrow envFix reqNoMethod resFix).1
      (resetStatus resFix) "boom" _ (resetStatus resFix) "boom2" rfl rfl rfl,
   (fallback_throw_behavior emptyDefinition optsNotFoundThrow envFix reqNoMethod
      resFix).2 _ (resetStatus resFix) "boom" rfl rfl rfl⟩

/-- A request with a falsy (0) pre-attached body and an empty stream. -/
def reqZeroBody : Request := ⟨some "POST", Value.num 0, Value.undef, some "/", ""⟩

/-- C10 witness: a pre-attached body of `0` is not used as the parsed body;
`parseBody` falls through to the (empty) stream. -/
theorem falsy_preattached_body_ignored_witness :
    parseBody envFix reqZeroBody =
      (if reqZeroBody.rawBody = "" then Except.ok Value.null
       else envFix.jsonParse reqZeroBody.rawBody) :=
  (falsy_preattached_body_ignored envFix reqZeroBody).1 rfl

end NextHandler
